import Mathlib

/-!
# Thread group and task primitives

A shallow embedding of `longyuim/server/src/Common/ThreadGroup.cpp` (class
`CThreadGroup`), of `linux_project/adpush/apsdk/base/task/task.h`
(`RunnableMethod`, `ScopedRunnableMethodFactory`, `RunnableFunction`) and of
the `TaskQueue` declared in `task_queue.h`, followed by theorems about them.

Member functions become pure functions on an explicit group state.  Everything
the operating system decides (does `pthread_create` succeed, what does the wait
on the event return, did a thread exit during the wait) is an explicit argument
of the function that asks for it.  Calls made on external objects are appended
to an effect log that is part of the state, so that "no wait was performed" or
"the event was set" are statements about that log.
-/

/-! ## Data model of `CThreadGroup` -/

/-- A pointer value `STRU_THREAD_CONTEXT*`; records are held and compared by address. -/
abbrev Ptr := Nat

/-- The fields of `STRU_THREAD_CONTEXT` that `Start` and `StartThread` fill in.
`moThreadStat.SetThreadName(apThreadName, luiCounter)` is kept as the pair
`threadName`, `threadIndex`. -/
structure STRU_THREAD_CONTEXT where
  mpWorkContext : Nat
  threadName : String
  threadIndex : Nat
  miPriority : Int
  muiThreadID : Nat
  deriving DecidableEq, Repr

/-- The two builds selected by `#ifdef WIN32` in `StartThread`, `EndThread` and
`PrintThreadInfo`. -/
inductive Build where
  | WIN32
  | POSIX
  deriving DecidableEq, Repr

/-- Calls the group makes on external objects, in program order. -/
inductive Effect where
  /-- the call `moStopEvent.Create(false, false)` -/
  | EventCreate (a b : Bool)
  /-- the call `moStopEvent.SetEvent()` -/
  | SetEvent
  /-- the call `moStopEvent.WaitForEvent(ldwWaitTime)` -/
  | WaitForEvent (ldwWaitTime : Nat)
  /-- the call `moStopEvent.Close()` -/
  | EventClose
  /-- the call `StartThread(lpThreadContext, apThreadFunc)` -/
  | StartThread (p : Ptr)
  /-- the call `WaitForSingleObject(apContext->mhHandle, 2000)` -/
  | WaitForSingleObject (p : Ptr) (ms : Nat)
  /-- the call `TerminateThread(apContext->mhHandle, 0xFFFFFFFF)` -/
  | TerminateThread (p : Ptr)
  /-- the call `CloseHandle(apContext->mhHandle)` -/
  | CloseHandle (p : Ptr)
  /-- the call `usleep(us)` -/
  | usleep (us : Nat)
  deriving DecidableEq, Repr

/-- State of a `CThreadGroup`: the flag `mbStop`, the list `moThreadList` of
record pointers, the live records (what `new` allocated and `delete` has not
yet freed) and the log of external calls. -/
structure CThreadGroup where
  mbStop : Bool
  moThreadList : List Ptr
  heap : List (Ptr × STRU_THREAD_CONTEXT)
  log : List Effect
  deriving DecidableEq, Repr

/-- The statement `delete p` on a record pointer. -/
def deleteRecord (p : Ptr) (heap : List (Ptr × STRU_THREAD_CONTEXT)) :
    List (Ptr × STRU_THREAD_CONTEXT) :=
  heap.filter (fun e => e.1 ≠ p)

/-- The record stored at `p`, if `p` is live. -/
def lookupRecord (p : Ptr) (heap : List (Ptr × STRU_THREAD_CONTEXT)) :
    Option STRU_THREAD_CONTEXT :=
  (heap.find? (fun e => e.1 = p)).map Prod.snd

/-- `CThreadGroup::CThreadGroup`: `mbStop = true`, nothing else exists yet. -/
def CThreadGroup.construct : CThreadGroup :=
  { mbStop := true, moThreadList := [], heap := [], log := [] }

/-- Modelled from the spec: `IsStop` is declared in `ThreadGroup.h`, which is not
among the sources; the spec describes the guard of `StopAll` as "if not already
stopped", so `IsStop` reads the state flag. -/
def CThreadGroup.IsStop (g : CThreadGroup) : Bool :=
  g.mbStop

/-! ## `Sleep` and `WakeAll` -/

/-- The state of the group while a caller of `Sleep` is inside
`moStopEvent.WaitForEvent`: the guard `false == mbStop` was passed,
`mbStop = true` has been executed and the wait has been issued. A group that
is already stopped is left alone (the call returns at once). -/
def CThreadGroup.SleepEnter (g : CThreadGroup) (ldwWaitTime : Nat) : CThreadGroup :=
  if g.mbStop = false then
    { g with mbStop := true, log := g.log ++ [Effect.WaitForEvent ldwWaitTime] }
  else g

/-- `CThreadGroup::Sleep`. `miResult` is what `WaitForEvent` returns if it is
called. The result is the returned `bool` and the state afterwards. -/
def CThreadGroup.Sleep (g : CThreadGroup) (ldwWaitTime : Nat) (miResult : Int) :
    Bool × CThreadGroup :=
  if g.mbStop = false then
    let g1 := g.SleepEnter ldwWaitTime
    if miResult = 0 ∨ miResult = -1 then (true, g1) else (false, g1)
  else (false, g)

/-- `CThreadGroup::WakeAll`. -/
def CThreadGroup.WakeAll (g : CThreadGroup) : CThreadGroup :=
  if g.mbStop then
    { g with mbStop := false, log := g.log ++ [Effect.SetEvent] }
  else g

/-! ## `Start` -/

/-- What one iteration of the loop in `Start` meets: the pointer `new` returns
and the answer of `StartThread`, or an exception inside the `try` block. -/
inductive Spawn where
  /-- `new` returns `p`, `StartThread` returns true with thread id `tid` -/
  | started (p : Ptr) (tid : Nat)
  /-- `new` returns `p`, `StartThread` returns false -/
  | failed (p : Ptr)
  /-- `new STRU_THREAD_CONTEXT()` throws; `lpThreadContext` is still NULL -/
  | newThrows
  /-- `new` returns `p`, `StartThread` returns true, `push_back` throws -/
  | pushThrows (p : Ptr) (tid : Nat)
  deriving DecidableEq, Repr

/-- The `for` loop of `Start` together with its `catch`. `remaining` is
`auiThreadNum - luiCounter`, so the loop condition `luiCounter < auiThreadNum`
is `remaining ≠ 0`. The result is the final `luiCounter` and the state.
`luiCounter` is an `unsigned int` that never exceeds `auiThreadNum`, so it
cannot wrap. -/
def CThreadGroup.StartLoop (env : Nat → Spawn) (apWorkContext : Nat)
    (apThreadName : String) (aiPriority : Int) :
    (remaining : Nat) → (luiCounter : Nat) → CThreadGroup → Nat × CThreadGroup
  | 0, luiCounter, g => (luiCounter, g)
  | remaining + 1, luiCounter, g =>
    match env luiCounter with
    | Spawn.started p tid =>
      -- StartThread succeeded: push_back, then luiCounter++
      CThreadGroup.StartLoop env apWorkContext apThreadName aiPriority remaining
        (luiCounter + 1)
        { g with
          moThreadList := g.moThreadList ++ [p],
          heap := g.heap ++ [(p, { mpWorkContext := apWorkContext,
                                   threadName := apThreadName,
                                   threadIndex := luiCounter,
                                   miPriority := aiPriority,
                                   muiThreadID := tid })],
          log := g.log ++ [Effect.StartThread p] }
    | Spawn.failed p =>
      -- StartThread failed: delete the record, then luiCounter++
      CThreadGroup.StartLoop env apWorkContext apThreadName aiPriority remaining
        (luiCounter + 1)
        { g with log := g.log ++ [Effect.StartThread p] }
    | Spawn.newThrows =>
      -- catch (...): lpThreadContext is NULL, fall through to the return
      (luiCounter, g)
    | Spawn.pushThrows p _ =>
      -- catch (...): the record is deleted, fall through to the return
      (luiCounter, { g with log := g.log ++ [Effect.StartThread p] })

/-- `CThreadGroup::Start`. `createOk` is the result of
`moStopEvent.Create(false, false)` if it is called; `env` answers the
allocation and thread creation of each iteration. The result is the returned
`unsigned int` and the state afterwards. -/
def CThreadGroup.Start (g : CThreadGroup) (apWorkContext : Nat) (auiThreadNum : Nat)
    (apThreadName : String) (aiPriority : Int) (createOk : Bool) (env : Nat → Spawn) :
    Nat × CThreadGroup :=
  if g.mbStop then
    let g1 := { g with mbStop := false, log := g.log ++ [Effect.EventCreate false false] }
    if !createOk then (0, g1)
    else CThreadGroup.StartLoop env apWorkContext apThreadName aiPriority auiThreadNum 0 g1
  else CThreadGroup.StartLoop env apWorkContext apThreadName aiPriority auiThreadNum 0 g

/-- No iteration below `n` raised an exception. -/
def noThrow (env : Nat → Spawn) (n : Nat) : Prop :=
  ∀ i, i < n → env i ≠ Spawn.newThrows ∧ ∀ p tid, env i ≠ Spawn.pushThrows p tid

/-! ## `StopAll`, `EndThread`, `Dump`, `Detach` -/

/-- `CThreadGroup::EndThread`, both builds. `exited p` tells whether
`WaitForSingleObject(handle, 2000)` returns `WAIT_OBJECT_0` for the thread of
record `p`, that is, whether that thread ended within the 2000 ms wait. The
non-WIN32 body runs `usleep(99000)` for `liWaitCount = 0 .. 11` and returns
`lbResult`, which is never assigned after its initialisation to true (the
liveness probe and `pthread_cancel` are commented out in the source). The
result is the returned `bool` and the external calls made. -/
def CThreadGroup.EndThread (b : Build) (exited : Ptr → Bool) (apContext : Ptr) :
    Bool × List Effect :=
  match b with
  | Build.WIN32 =>
    if exited apContext = false then
      (false, [Effect.WaitForSingleObject apContext 2000,
               Effect.TerminateThread apContext,
               Effect.CloseHandle apContext])
    else
      (true, [Effect.WaitForSingleObject apContext 2000,
              Effect.CloseHandle apContext])
  | Build.POSIX => (true, List.replicate 12 (Effect.usleep 99000))

/-- The loop of `StopAll` over `moThreadList`: `rest` is what the iterator has
not visited yet, `liTermainte` the running count. Each step calls `EndThread`,
counts a false answer and deletes the record. -/
def CThreadGroup.StopAllLoop (b : Build) (exited : Ptr → Bool) :
    (rest : List Ptr) → (liTermainte : Nat) → CThreadGroup → Nat × CThreadGroup
  | [], liTermainte, g => (liTermainte, g)
  | p :: rest, liTermainte, g =>
    let r := CThreadGroup.EndThread b exited p
    CThreadGroup.StopAllLoop b exited rest
      (if r.1 = false then liTermainte + 1 else liTermainte)
      { g with heap := deleteRecord p g.heap, log := g.log ++ r.2 }

/-- The diagnostic line `StopAll` writes before returning. -/
inductive StopTrace where
  /-- forced count and `liThread - liTermainte` -/
  | forced (liTermainte : Nat) (normal : Int)
  /-- the line written when `liTermainte` is zero -/
  | allNormal
  deriving DecidableEq, Repr

/-- What a call of `StopAll` yields: the returned `bool`, the final value of
`liTermainte`, the diagnostic line and the state afterwards. -/
structure StopAllResult where
  ret : Bool
  liTermainte : Nat
  trace : StopTrace
  g : CThreadGroup
  deriving DecidableEq, Repr

/-- `CThreadGroup::StopAll`. -/
def CThreadGroup.StopAll (b : Build) (exited : Ptr → Bool) (g : CThreadGroup) :
    StopAllResult :=
  let liThread : Int := g.moThreadList.length
  let r : Nat × CThreadGroup :=
    if !g.IsStop then
      let g1 := { g with mbStop := true, log := g.log ++ [Effect.SetEvent] }
      let r1 := CThreadGroup.StopAllLoop b exited g1.moThreadList 0 g1
      (r1.1, { r1.2 with moThreadList := [], log := r1.2.log ++ [Effect.EventClose] })
    else (0, g)
  { ret := true,
    liTermainte := r.1,
    trace := if r.1 ≠ 0 then StopTrace.forced r.1 (liThread - r.1) else StopTrace.allNormal,
    g := r.2 }

/-- What `Dump` writes: the size line and one `PrintThreadInfo` block per
element of `moThreadList`, in list order. -/
structure DumpOutput where
  size : Nat
  records : List (Ptr × Option STRU_THREAD_CONTEXT)
  deriving DecidableEq, Repr

/-- `CThreadGroup::Dump`. -/
def CThreadGroup.Dump (g : CThreadGroup) : DumpOutput :=
  { size := g.moThreadList.length,
    records := g.moThreadList.map (fun p => (p, lookupRecord p g.heap)) }

/-- The search loop of `Detach`: walks the list, and at the first element equal
to `apThread` sets `lbRet`, erases that element and breaks. The result is
`lbRet` and the list afterwards. -/
def CThreadGroup.DetachLoop (apThread : Ptr) : List Ptr → Bool × List Ptr
  | [] => (false, [])
  | p :: rest =>
    if p = apThread then (true, rest)
    else
      let r := CThreadGroup.DetachLoop apThread rest
      (r.1, p :: r.2)

/-- `CThreadGroup::Detach`. The result is the returned `bool` and the state
afterwards; a found record is deleted after it was printed. -/
def CThreadGroup.Detach (g : CThreadGroup) (apThread : Ptr) : Bool × CThreadGroup :=
  if g.mbStop then (true, g)
  else
    let r := CThreadGroup.DetachLoop apThread g.moThreadList
    if r.1 then
      (true, { g with moThreadList := r.2, heap := deleteRecord apThread g.heap })
    else
      (false, { g with moThreadList := r.2 })

/-- Number of elements of a pointer list whose thread did not end within the
wait of `EndThread`. -/
def lateCount (exited : Ptr → Bool) (l : List Ptr) : Nat :=
  (l.filter (fun p => exited p = false)).length

/-! ## `RunnableMethod` (task.h) -/

/-- The class template `RunnableMethod<T, Method, Params>`: the receiver pointer
`obj_` (`none` is the null pointer), the method and the captured tuple. -/
structure RunnableMethod (T Method Params : Type) where
  obj_ : Option T
  meth_ : Method
  params_ : Params

/-- `RunnableMethod::ReleaseCallee`: `obj_ = 0`. -/
def RunnableMethod.ReleaseCallee {T Method Params : Type}
    (t : RunnableMethod T Method Params) : RunnableMethod T Method Params :=
  { t with obj_ := none }

/-- `RunnableMethod::Run`. `DispatchToMethod` comes from `tuple.h`, which is not
among the sources, and is a parameter: it stands for the call of `meth_` on the
receiver with the tuple unpacked, acting on a world `W`. The result is the task
and the world afterwards. -/
def RunnableMethod.Run {T Method Params W : Type}
    (DispatchToMethod : T → Method → Params → W → W)
    (t : RunnableMethod T Method Params) (w : W) :
    RunnableMethod T Method Params × W :=
  match t.obj_ with
  | some obj => (t, DispatchToMethod obj t.meth_ t.params_ w)
  | none => (t, w)

/-- `RunnableMethod::Cancel`: calls `ReleaseCallee`. It takes the same
arguments as `Run` so that the two can be sequenced. -/
def RunnableMethod.Cancel {T Method Params W : Type}
    (_DispatchToMethod : T → Method → Params → W → W)
    (t : RunnableMethod T Method Params) (w : W) :
    RunnableMethod T Method Params × W :=
  (t.ReleaseCallee, w)

/-- The free function template `NewRunnableMethod(object, method, a, ...)`. Its
overloads differ only in the tuple `MakeTuple(a, ...)` they hand to the
constructor; that tuple is `params`. -/
def NewRunnableMethod {T Method Params : Type} (object : Option T) (method : Method)
    (params : Params) : RunnableMethod T Method Params :=
  { obj_ := object, meth_ := method, params_ := params }

/-- The two virtual calls a holder of a `CancelableTask*` can make. -/
inductive TaskCall where
  | Run
  | Cancel
  deriving DecidableEq, Repr

/-- A holder making the calls `calls` on a `RunnableMethod`, in order. -/
def RunnableMethod.perform {T Method Params W : Type}
    (DispatchToMethod : T → Method → Params → W → W) :
    List TaskCall → RunnableMethod T Method Params → W → RunnableMethod T Method Params × W
  | [], t, w => (t, w)
  | TaskCall.Run :: rest, t, w =>
    let r := RunnableMethod.Run DispatchToMethod t w
    RunnableMethod.perform DispatchToMethod rest r.1 r.2
  | TaskCall.Cancel :: rest, t, w =>
    let r := RunnableMethod.Cancel DispatchToMethod t w
    RunnableMethod.perform DispatchToMethod rest r.1 r.2

/-! ## Example environments -/

/-- Every allocation succeeds and every `StartThread` returns true. -/
def allStart (i : Nat) : Spawn :=
  Spawn.started (100 + i) (500 + i)

/-- Every allocation succeeds and every `StartThread` returns false. -/
def allFail (i : Nat) : Spawn :=
  Spawn.failed (100 + i)

/-- Only the second `StartThread` (iteration 1) returns false. -/
def secondFails (i : Nat) : Spawn :=
  if i = 1 then Spawn.failed (100 + i) else Spawn.started (100 + i) (500 + i)

/-- A running group holding the records 100 and 101. -/
def twoWorkers : CThreadGroup :=
  (CThreadGroup.construct.Start 7 2 "worker" 0 true allStart).2

/-! ## `ScopedRunnableMethodFactory` and `RunnableFunction` (task.h) -/

/-- The class template `ScopedRunnableMethodFactory<T>`: its only member is the
raw pointer `T* weak_factory_` given to the constructor (`none` is the null
pointer). -/
structure ScopedRunnableMethodFactory (T : Type) where
  weak_factory_ : Option T

/-- The nested class template `ScopedRunnableMethodFactory<T>::RunnableMethod`:
the constructor stores `(T*)obj` in the raw pointer `obj_`, next to the method
and the captured tuple. -/
structure ScopedRunnableMethodFactory.RunnableMethod (T Method Params : Type) where
  obj_ : Option T
  meth_ : Method
  params_ : Params

/-- `ScopedRunnableMethodFactory::RunnableMethod::Run`, with `DispatchToMethod`
(from the absent `tuple.h`) as a parameter. The result is the task and the
world afterwards. -/
def ScopedRunnableMethodFactory.RunnableMethod.Run {T Method Params W : Type}
    (DispatchToMethod : T → Method → Params → W → W)
    (t : ScopedRunnableMethodFactory.RunnableMethod T Method Params) (w : W) :
    ScopedRunnableMethodFactory.RunnableMethod T Method Params × W :=
  match t.obj_ with
  | some obj => (t, DispatchToMethod obj t.meth_ t.params_ w)
  | none => (t, w)

/-- `ScopedRunnableMethodFactory::RunnableMethod::Cancel`: the body holds only
the comment `//obj_.reset();`, so nothing is executed. -/
def ScopedRunnableMethodFactory.RunnableMethod.Cancel {T Method Params W : Type}
    (_DispatchToMethod : T → Method → Params → W → W)
    (t : ScopedRunnableMethodFactory.RunnableMethod T Method Params) (w : W) :
    ScopedRunnableMethodFactory.RunnableMethod T Method Params × W :=
  (t, w)

/-- `ScopedRunnableMethodFactory::NewRunnableMethod(method, a, ...)`. The
overloads for zero to five arguments differ only in the tuple
`MakeTuple(a, ...)`, which is `params`; each hands `weak_factory_` to the
constructor of the task. -/
def ScopedRunnableMethodFactory.NewRunnableMethod {T Method Params : Type}
    (f : ScopedRunnableMethodFactory T) (method : Method) (params : Params) :
    ScopedRunnableMethodFactory.RunnableMethod T Method Params :=
  { obj_ := f.weak_factory_, meth_ := method, params_ := params }

/-- A holder making the calls `calls` on a task of a factory, in order. -/
def ScopedRunnableMethodFactory.RunnableMethod.perform {T Method Params W : Type}
    (DispatchToMethod : T → Method → Params → W → W) :
    List TaskCall → ScopedRunnableMethodFactory.RunnableMethod T Method Params → W →
      ScopedRunnableMethodFactory.RunnableMethod T Method Params × W
  | [], t, w => (t, w)
  | TaskCall.Run :: rest, t, w =>
    let r := ScopedRunnableMethodFactory.RunnableMethod.Run DispatchToMethod t w
    ScopedRunnableMethodFactory.RunnableMethod.perform DispatchToMethod rest r.1 r.2
  | TaskCall.Cancel :: rest, t, w =>
    let r := ScopedRunnableMethodFactory.RunnableMethod.Cancel DispatchToMethod t w
    ScopedRunnableMethodFactory.RunnableMethod.perform DispatchToMethod rest r.1 r.2

/-- A factory seen together with the tasks it has handed out. `factory` is
`none` once the factory's lifetime has ended; `issued` are the tasks, which
belong to whoever received them. -/
structure FactoryScope (T Method Params : Type) where
  factory : Option (ScopedRunnableMethodFactory T)
  issued : List (ScopedRunnableMethodFactory.RunnableMethod T Method Params)

/-- A live factory makes a task and hands it out. -/
def FactoryScope.NewRunnableMethod {T Method Params : Type}
    (s : FactoryScope T Method Params) (method : Method) (params : Params) :
    FactoryScope T Method Params :=
  match s.factory with
  | some f => { s with issued := s.issued ++ [f.NewRunnableMethod method params] }
  | none => s

/-- The end of the factory's lifetime. The class declares no destructor and
keeps no list of the tasks it made, and its only member is a raw pointer, so
the implicit destructor runs no code: the handed-out tasks are what they were. -/
def FactoryScope.destroyFactory {T Method Params : Type}
    (s : FactoryScope T Method Params) : FactoryScope T Method Params :=
  { s with factory := none }

/-- The holders run every handed-out task once, in order. -/
def FactoryScope.RunAll {T Method Params W : Type}
    (DispatchToMethod : T → Method → Params → W → W)
    (s : FactoryScope T Method Params) (w : W) : W :=
  s.issued.foldl
    (fun w t => (ScopedRunnableMethodFactory.RunnableMethod.Run DispatchToMethod t w).2) w

/-- The class template `RunnableFunction<Function, Params>`: the function
pointer `function_` (`none` is the null pointer) and the captured tuple. -/
structure RunnableFunction (Function Params : Type) where
  function_ : Option Function
  params_ : Params

/-- `RunnableFunction::Run`, with `DispatchToFunction` (from the absent
`tuple.h`) as a parameter: it stands for the call of the function with the
tuple unpacked, acting on a world `W`. -/
def RunnableFunction.Run {Function Params W : Type}
    (DispatchToFunction : Function → Params → W → W)
    (t : RunnableFunction Function Params) (w : W) : RunnableFunction Function Params × W :=
  match t.function_ with
  | some fn => (t, DispatchToFunction fn t.params_ w)
  | none => (t, w)

/-- `RunnableFunction::Cancel`: the body is empty. -/
def RunnableFunction.Cancel {Function Params W : Type}
    (_DispatchToFunction : Function → Params → W → W)
    (t : RunnableFunction Function Params) (w : W) : RunnableFunction Function Params × W :=
  (t, w)

/-- The free function template `NewRunnableFunction(function, a, ...)`; the
overloads differ only in the tuple `MakeTuple(a, ...)`, which is `params`. -/
def NewRunnableFunction {Function Params : Type} (function : Option Function)
    (params : Params) : RunnableFunction Function Params :=
  { function_ := function, params_ := params }

/-- A receiver method used in examples: every dispatch adds one to a call
counter, which is the world. -/
def countCall (_obj : Nat) (_meth : Nat) (_params : Unit) (calls : Nat) : Nat :=
  calls + 1

/-- A factory whose owner is the object 1, and nothing handed out yet. -/
def ownerScope : FactoryScope Nat Nat Unit :=
  { factory := some { weak_factory_ := some 1 }, issued := [] }

/-- The task `NewRunnableMethod(method 7)` of the factory of owner 1. -/
def ownerTask : ScopedRunnableMethodFactory.RunnableMethod Nat Nat Unit :=
  ScopedRunnableMethodFactory.NewRunnableMethod { weak_factory_ := some 1 } 7 ()

/-! ## `TaskQueue` (declared in task_queue.h) -/

/-- Modelled from the spec: the member functions of `TaskQueue` are only
declared in `task_queue.h`, their bodies are not among the sources. The spec
gives the state as "an ordered sequence of owned Task pointers plus a
mutual-exclusion guard"; `queue_` is that sequence, head first. -/
structure TaskQueue (Task : Type) where
  queue_ : List Task

/-- Modelled from the spec: the constructor of `TaskQueue`, whose body is not
among the sources: "`isEmpty()` is true immediately after construction". -/
def TaskQueue.construct {Task : Type} : TaskQueue Task :=
  { queue_ := [] }

/-- Modelled from the spec: `TaskQueue::Push`, whose body is not among the
sources: "under the lock, append to the tail". -/
def TaskQueue.Push {Task : Type} (q : TaskQueue Task) (task : Task) : TaskQueue Task :=
  { queue_ := q.queue_ ++ [task] }

/-- Modelled from the spec: `TaskQueue::Clear`, whose body is not among the
sources: "destroy every currently queued task and empty the collection". -/
def TaskQueue.Clear {Task : Type} (_q : TaskQueue Task) : TaskQueue Task :=
  { queue_ := [] }

/-- Modelled from the spec: `TaskQueue::IsEmpty`, whose body is not among the
sources: "point-in-time emptiness check". -/
def TaskQueue.IsEmpty {Task : Type} (q : TaskQueue Task) : Bool :=
  q.queue_.isEmpty

/-- Modelled from the spec: one step of the pass of `TaskQueue::Run`, whose body
is not among the sources: the task's `Run` is called, which is recorded at the
end of `executed`, and every task it pushes onto this queue (`pushes task`, in
order) goes through `Push`; the task is then destroyed. -/
def TaskQueue.runTask {Task : Type} (pushes : Task → List Task)
    (s : TaskQueue Task × List Task) (task : Task) : TaskQueue Task × List Task :=
  ((pushes task).foldl TaskQueue.Push s.1, s.2 ++ [task])

/-- Modelled from the spec: `TaskQueue::Run`, whose body is not among the
sources: "acquire the current contents as a batch (everything queued before
this call), release the lock, then execute and destroy each task in FIFO
order"; pushes made meanwhile land in the emptied `queue_`. `executed` is the
list of tasks run so far; the result is the queue and that list afterwards. -/
def TaskQueue.Run {Task : Type} (pushes : Task → List Task) (q : TaskQueue Task)
    (executed : List Task) : TaskQueue Task × List Task :=
  q.queue_.foldl (TaskQueue.runTask pushes) ({ queue_ := [] }, executed)

/-- Tasks of the example: task 0 is "A", task 1 is "B"; running A pushes B,
running anything else pushes nothing. -/
def pushesAB (task : Nat) : List Nat :=
  if task = 0 then [1] else []

/-! ## Lock discipline of `CThreadGroup` -/

/-- What a member function does to the lock `moAccessCS`, the flag `mbStop` and
the list `moThreadList`, in program order. -/
inductive Access where
  /-- a `CAutoLock loLock(moAccessCS)` is constructed -/
  | lock
  /-- the scope of that `CAutoLock` ends -/
  | unlock
  /-- the assignment `mbStop = v` -/
  | writeStop (v : Bool)
  /-- the call `moThreadList.push_back(p)` -/
  | push_back (p : Ptr)
  /-- the call `moThreadList.erase(loIterator)` at the first element equal to `p` -/
  | erase (p : Ptr)
  /-- the call `moThreadList.clear()` -/
  | clear
  deriving DecidableEq, Repr

/-- `CThreadGroup::Sleep`: no `CAutoLock` is constructed; `mbStop = true` is
executed when the guard `false == mbStop` holds. -/
def CThreadGroup.SleepAccesses (g : CThreadGroup) : List Access :=
  if g.mbStop = false then [Access.writeStop true] else []

/-- `CThreadGroup::WakeAll`: no `CAutoLock` is constructed; `mbStop = false` is
executed when `mbStop` holds. -/
def CThreadGroup.WakeAllAccesses (g : CThreadGroup) : List Access :=
  if g.mbStop then [Access.writeStop false] else []

/-- The loop of `Start`: one `push_back` for every iteration whose `StartThread`
succeeded; an exception ends the loop. -/
def CThreadGroup.StartLoopAccesses (env : Nat → Spawn) :
    (remaining : Nat) → (luiCounter : Nat) → List Access
  | 0, _ => []
  | remaining + 1, luiCounter =>
    match env luiCounter with
    | Spawn.started p _ =>
      Access.push_back p :: CThreadGroup.StartLoopAccesses env remaining (luiCounter + 1)
    | Spawn.failed _ => CThreadGroup.StartLoopAccesses env remaining (luiCounter + 1)
    | Spawn.newThrows => []
    | Spawn.pushThrows _ _ => []

/-- `CThreadGroup::Start`: `CAutoLock loLock(moAccessCS)` is constructed before
the test of `mbStop` and lives to the end of the function, on every return. -/
def CThreadGroup.StartAccesses (g : CThreadGroup) (auiThreadNum : Nat) (createOk : Bool)
    (env : Nat → Spawn) : List Access :=
  [Access.lock] ++
    (if g.mbStop then
      Access.writeStop false ::
        (if !createOk then [] else CThreadGroup.StartLoopAccesses env auiThreadNum 0)
    else CThreadGroup.StartLoopAccesses env auiThreadNum 0) ++
    [Access.unlock]

/-- `CThreadGroup::StopAll`: inside `if (!IsStop())` the `CAutoLock` is
constructed first, then `mbStop = true`, later `moThreadList.clear()`, and the
block ends. -/
def CThreadGroup.StopAllAccesses (g : CThreadGroup) : List Access :=
  if !g.IsStop then
    [Access.lock, Access.writeStop true, Access.clear, Access.unlock]
  else []

/-- `CThreadGroup::Detach`: after the early return for a stopped group, an
inner block constructs the `CAutoLock`, searches and erases at most one
element, and ends. -/
def CThreadGroup.DetachAccesses (g : CThreadGroup) (apThread : Ptr) : List Access :=
  if g.mbStop then []
  else
    [Access.lock] ++
      (if (CThreadGroup.DetachLoop apThread g.moThreadList).1 then [Access.erase apThread]
       else []) ++
      [Access.unlock]

/-- Every write to the flag or the list in the sequence happens while the lock
is held; `held` tells whether it is held at the start. -/
def underLock : (held : Bool) → List Access → Bool
  | _, [] => true
  | _, Access.lock :: rest => underLock true rest
  | _, Access.unlock :: rest => underLock false rest
  | held, _ :: rest => held && underLock held rest

/-- The effect of a sequence of accesses on the pair of `mbStop` and
`moThreadList`. -/
def replayAccesses : List Access → Bool × List Ptr → Bool × List Ptr
  | [], s => s
  | Access.lock :: rest, s => replayAccesses rest s
  | Access.unlock :: rest, s => replayAccesses rest s
  | Access.writeStop v :: rest, s => replayAccesses rest (v, s.2)
  | Access.push_back p :: rest, s => replayAccesses rest (s.1, s.2 ++ [p])
  | Access.erase p :: rest, s => replayAccesses rest (s.1, s.2.erase p)
  | Access.clear :: rest, s => replayAccesses rest (s.1, [])

/-! ## Lemmas about the loop of `Start` -/

/-- The loop never changes the state flag. -/
theorem StartLoop_mbStop (env : Nat → Spawn) (w : Nat) (n : String) (a : Int) :
    ∀ (k c : Nat) (g : CThreadGroup),
      (CThreadGroup.StartLoop env w n a k c g).2.mbStop = g.mbStop := by
  intro k
  induction k with
  | zero => intro c g; rfl
  | succ k ih =>
    intro c g
    unfold CThreadGroup.StartLoop
    cases h : env c with
    | started p tid => simp only [ih]
    | failed p => simp only [ih]
    | newThrows => rfl
    | pushThrows p tid => rfl

/-- The counter the loop ends with lies between its start value and the
requested bound. -/
theorem StartLoop_counter_bounds (env : Nat → Spawn) (w : Nat) (n : String) (a : Int) :
    ∀ (k c : Nat) (g : CThreadGroup),
      c ≤ (CThreadGroup.StartLoop env w n a k c g).1 ∧
      (CThreadGroup.StartLoop env w n a k c g).1 ≤ c + k := by
  intro k
  induction k with
  | zero => intro c g; simp [CThreadGroup.StartLoop]
  | succ k ih =>
    intro c g
    unfold CThreadGroup.StartLoop
    cases h : env c with
    | started p tid =>
      have := ih (c + 1) { g with
          moThreadList := g.moThreadList ++ [p],
          heap := g.heap ++ [(p, { mpWorkContext := w, threadName := n, threadIndex := c,
                                   miPriority := a, muiThreadID := tid })],
          log := g.log ++ [Effect.StartThread p] }
      simp only []
      omega
    | failed p =>
      have := ih (c + 1) { g with log := g.log ++ [Effect.StartThread p] }
      simp only []
      omega
    | newThrows => simp
    | pushThrows p tid => simp

/-- When no iteration raises an exception the loop runs to the bound: the final
counter is the requested count whatever `StartThread` answered. -/
theorem StartLoop_counter_noThrow (env : Nat → Spawn) (w : Nat) (n : String) (a : Int) :
    ∀ (k c : Nat) (g : CThreadGroup),
      (∀ i, c ≤ i → i < c + k →
        env i ≠ Spawn.newThrows ∧ ∀ p tid, env i ≠ Spawn.pushThrows p tid) →
      (CThreadGroup.StartLoop env w n a k c g).1 = c + k := by
  intro k
  induction k with
  | zero => intro c g _; rfl
  | succ k ih =>
    intro c g hne
    have hc := hne c (Nat.le_refl c) (by omega)
    have hrest : ∀ i, c + 1 ≤ i → i < c + 1 + k →
        env i ≠ Spawn.newThrows ∧ ∀ p tid, env i ≠ Spawn.pushThrows p tid :=
      fun i h1 h2 => hne i (by omega) (by omega)
    unfold CThreadGroup.StartLoop
    cases h : env c with
    | started p tid => simp only []; rw [ih _ _ hrest]; omega
    | failed p => simp only []; rw [ih _ _ hrest]; omega
    | newThrows => exact absurd h hc.1
    | pushThrows p tid => exact absurd h (hc.2 p tid)

/-- The loop only appends to the pool, and it appends at most as many records
as the counter advanced. -/
theorem StartLoop_appended (env : Nat → Spawn) (w : Nat) (n : String) (a : Int) :
    ∀ (k c : Nat) (g : CThreadGroup),
      ∃ l : List Ptr,
        (CThreadGroup.StartLoop env w n a k c g).2.moThreadList = g.moThreadList ++ l ∧
        l.length + c ≤ (CThreadGroup.StartLoop env w n a k c g).1 := by
  intro k
  induction k with
  | zero => intro c g; exact ⟨[], by simp [CThreadGroup.StartLoop]⟩
  | succ k ih =>
    intro c g
    unfold CThreadGroup.StartLoop
    cases h : env c with
    | started p tid =>
      obtain ⟨l, h1, h2⟩ := ih (c + 1) { g with
          moThreadList := g.moThreadList ++ [p],
          heap := g.heap ++ [(p, { mpWorkContext := w, threadName := n, threadIndex := c,
                                   miPriority := a, muiThreadID := tid })],
          log := g.log ++ [Effect.StartThread p] }
      refine ⟨p :: l, ?_, ?_⟩
      · simp only [h1, List.append_assoc, List.singleton_append]
      · simp only [List.length_cons]; omega
    | failed p =>
      obtain ⟨l, h1, h2⟩ := ih (c + 1) { g with log := g.log ++ [Effect.StartThread p] }
      refine ⟨l, ?_, ?_⟩
      · simp only [h1]
      · simp only []; omega
    | newThrows => exact ⟨[], by simp⟩
    | pushThrows p tid => exact ⟨[], by simp⟩

/-- When every iteration in range has `StartThread` return false, the pool and
the live records are what they were, and the counter still reaches the bound. -/
theorem StartLoop_allFailed (env : Nat → Spawn) (w : Nat) (n : String) (a : Int) :
    ∀ (k c : Nat) (g : CThreadGroup),
      (∀ i, c ≤ i → i < c + k → ∃ p, env i = Spawn.failed p) →
      (CThreadGroup.StartLoop env w n a k c g).1 = c + k ∧
      (CThreadGroup.StartLoop env w n a k c g).2.moThreadList = g.moThreadList ∧
      (CThreadGroup.StartLoop env w n a k c g).2.heap = g.heap := by
  intro k
  induction k with
  | zero => intro c g _; simp [CThreadGroup.StartLoop]
  | succ k ih =>
    intro c g hf
    obtain ⟨p, hp⟩ := hf c (Nat.le_refl c) (by omega)
    have hrest : ∀ i, c + 1 ≤ i → i < c + 1 + k → ∃ p, env i = Spawn.failed p :=
      fun i h1 h2 => hf i (by omega) (by omega)
    unfold CThreadGroup.StartLoop
    rw [hp]
    have := ih (c + 1) { g with log := g.log ++ [Effect.StartThread p] } hrest
    simp only [] at this ⊢
    refine ⟨?_, this.2.1, this.2.2⟩
    omega

/-- When every iteration in range has `StartThread` return true, the counter
reaches the bound and the pool grows by exactly that many records. -/
theorem StartLoop_allStarted (env : Nat → Spawn) (w : Nat) (n : String) (a : Int) :
    ∀ (k c : Nat) (g : CThreadGroup),
      (∀ i, c ≤ i → i < c + k → ∃ p tid, env i = Spawn.started p tid) →
      (CThreadGroup.StartLoop env w n a k c g).1 = c + k ∧
      (CThreadGroup.StartLoop env w n a k c g).2.moThreadList.length
        = g.moThreadList.length + k := by
  intro k
  induction k with
  | zero => intro c g _; simp [CThreadGroup.StartLoop]
  | succ k ih =>
    intro c g hs
    obtain ⟨p, tid, hp⟩ := hs c (Nat.le_refl c) (by omega)
    have hrest : ∀ i, c + 1 ≤ i → i < c + 1 + k → ∃ p tid, env i = Spawn.started p tid :=
      fun i h1 h2 => hs i (by omega) (by omega)
    unfold CThreadGroup.StartLoop
    rw [hp]
    have := ih (c + 1) { g with
          moThreadList := g.moThreadList ++ [p],
          heap := g.heap ++ [(p, { mpWorkContext := w, threadName := n, threadIndex := c,
                                   miPriority := a, muiThreadID := tid })],
          log := g.log ++ [Effect.StartThread p] } hrest
    simp only [List.length_append, List.length_singleton] at this ⊢
    omega

/-- `Start` never returns more than the requested count. -/
theorem Start_return_le (g : CThreadGroup) (w N : Nat) (n : String) (a : Int)
    (createOk : Bool) (env : Nat → Spawn) :
    (g.Start w N n a createOk env).1 ≤ N := by
  unfold CThreadGroup.Start
  split
  · split
    · exact Nat.zero_le N
    · have := (StartLoop_counter_bounds env w n a N 0
        { g with mbStop := false, log := g.log ++ [Effect.EventCreate false false] }).2
      simpa using this
  · have := (StartLoop_counter_bounds env w n a N 0 g).2
    simpa using this

/-- When the event is usable and nothing throws, `Start` returns the requested
count, whether or not the threads were created. -/
theorem Start_return_noThrow (g : CThreadGroup) (w N : Nat) (n : String) (a : Int)
    (env : Nat → Spawn) (hne : noThrow env N) :
    (g.Start w N n a true env).1 = N := by
  have hr : ∀ i, 0 ≤ i → i < 0 + N →
      env i ≠ Spawn.newThrows ∧ ∀ p tid, env i ≠ Spawn.pushThrows p tid :=
    fun i _ h => hne i (by omega)
  unfold CThreadGroup.Start
  split
  · simp only [Bool.not_true, Bool.false_eq_true, if_false]
    rw [StartLoop_counter_noThrow env w n a N 0 _ hr]; omega
  · rw [StartLoop_counter_noThrow env w n a N 0 _ hr]; omega

/-! ## Lemmas about `EndThread` and the loop of `StopAll` -/

/-- The loop of `StopAll` leaves the flag and the list alone, adds one to the
count for every record whose `EndThread` answered false, frees every visited
record and logs the calls of each `EndThread` in list order. -/
theorem StopAllLoop_spec (b : Build) (exited : Ptr → Bool) :
    ∀ (l : List Ptr) (t : Nat) (g : CThreadGroup),
      (CThreadGroup.StopAllLoop b exited l t g).1
        = t + (l.filter (fun p => (CThreadGroup.EndThread b exited p).1 = false)).length ∧
      (CThreadGroup.StopAllLoop b exited l t g).2.mbStop = g.mbStop ∧
      (CThreadGroup.StopAllLoop b exited l t g).2.moThreadList = g.moThreadList ∧
      (CThreadGroup.StopAllLoop b exited l t g).2.heap
        = g.heap.filter (fun e => decide (e.1 ∉ l)) ∧
      (CThreadGroup.StopAllLoop b exited l t g).2.log
        = g.log ++ l.flatMap (fun p => (CThreadGroup.EndThread b exited p).2) := by
  intro l
  induction l with
  | nil => intro t g; simp [CThreadGroup.StopAllLoop]
  | cons p rest ih =>
    intro t g
    unfold CThreadGroup.StopAllLoop
    obtain ⟨h1, h2, h3, h4, h5⟩ := ih
      (if (CThreadGroup.EndThread b exited p).1 = false then t + 1 else t)
      { g with heap := deleteRecord p g.heap,
               log := g.log ++ (CThreadGroup.EndThread b exited p).2 }
    refine ⟨?_, h2, h3, ?_, ?_⟩
    · simp only [h1, List.filter_cons]
      by_cases hp : (CThreadGroup.EndThread b exited p).1 = false
      · simp only [hp, if_true, decide_True, List.length_cons]; omega
      · simp only [hp, if_false, decide_False]
        simp
    · rw [h4]
      simp only [deleteRecord, List.filter_filter]
      apply List.filter_congr
      intro e _
      simp only [List.mem_cons, not_or, ne_eq]
      by_cases he : e.1 = p <;> simp [he]
    · simp only [h5, List.flatMap_cons, List.append_assoc]

/-- In the WIN32 build `EndThread` answers false exactly for a thread that did
not end within the wait. -/
theorem EndThread_WIN32_ret (exited : Ptr → Bool) (p : Ptr) :
    (CThreadGroup.EndThread Build.WIN32 exited p).1 = exited p := by
  unfold CThreadGroup.EndThread
  cases h : exited p <;> simp

/-- In the non-WIN32 build `EndThread` answers true for every thread and only
sleeps. -/
theorem EndThread_POSIX (exited : Ptr → Bool) (p : Ptr) :
    CThreadGroup.EndThread Build.POSIX exited p
      = (true, List.replicate 12 (Effect.usleep 99000)) := rfl

/-- `StopAll` on a running group: flag set, pool cleared, every pooled record
freed, and the log extended by `SetEvent`, the calls of each `EndThread` in
list order, and `Close`. -/
theorem StopAll_running (b : Build) (exited : Ptr → Bool) (g : CThreadGroup)
    (hrun : g.mbStop = false) :
    (CThreadGroup.StopAll b exited g).g.mbStop = true ∧
    (CThreadGroup.StopAll b exited g).g.moThreadList = [] ∧
    (CThreadGroup.StopAll b exited g).g.heap
      = g.heap.filter (fun e => decide (e.1 ∉ g.moThreadList)) ∧
    (CThreadGroup.StopAll b exited g).g.log
      = g.log ++ [Effect.SetEvent]
          ++ g.moThreadList.flatMap (fun p => (CThreadGroup.EndThread b exited p).2)
          ++ [Effect.EventClose] ∧
    (CThreadGroup.StopAll b exited g).liTermainte
      = (g.moThreadList.filter
          (fun p => (CThreadGroup.EndThread b exited p).1 = false)).length := by
  obtain ⟨h1, h2, _, h4, h5⟩ := StopAllLoop_spec b exited g.moThreadList 0
    { g with mbStop := true, log := g.log ++ [Effect.SetEvent] }
  simp only [CThreadGroup.StopAll, CThreadGroup.IsStop, hrun, Bool.not_false, if_true]
  refine ⟨?_, ?_, ?_, ?_, ?_⟩
  · simp only [h2]
  · trivial
  · simp only [h4]
  · simp only [h5]
  · simp only [h1]; omega

/-- `StopAll` on a stopped group does nothing. -/
theorem StopAll_stopped (b : Build) (exited : Ptr → Bool) (g : CThreadGroup)
    (hstop : g.mbStop = true) :
    CThreadGroup.StopAll b exited g
      = { ret := true, liTermainte := 0, trace := StopTrace.allNormal, g := g } := by
  simp [CThreadGroup.StopAll, CThreadGroup.IsStop, hstop]

/-! ## Lemmas about the search loop of `Detach` -/

/-- The search loop finds `r` exactly when it is in the list, and what is left
is the list with the first occurrence of `r` erased. -/
theorem DetachLoop_spec (r : Ptr) :
    ∀ l : List Ptr,
      CThreadGroup.DetachLoop r l = (decide (r ∈ l), l.erase r) := by
  intro l
  induction l with
  | nil => simp [CThreadGroup.DetachLoop]
  | cons p rest ih =>
    unfold CThreadGroup.DetachLoop
    by_cases hp : p = r
    · subst hp; simp
    · have hne : r ≠ p := fun h => hp h.symm
      simp [hp, hne, ih, List.erase_cons]

/-- Erasing one occurrence of `r` keeps every other element, in order. -/
theorem erase_keeps_others (r : Ptr) (l : List Ptr) :
    (l.erase r).filter (fun x => decide (x ≠ r)) = l.filter (fun x => decide (x ≠ r)) := by
  induction l with
  | nil => rfl
  | cons p rest ih =>
    by_cases hp : p = r
    · subst hp; simp
    · have ih2 : List.filter (fun x => !decide (x = r)) (rest.erase r)
          = List.filter (fun x => !decide (x = r)) rest := by simpa using ih
      simp [List.erase_cons, hp, ih2]

/-- Running `EndThread` of the non-WIN32 build over a list only sleeps, twelve
times per element. -/
theorem flatMap_EndThread_POSIX (exited : Ptr → Bool) (l : List Ptr) :
    l.flatMap (fun p => (CThreadGroup.EndThread Build.POSIX exited p).2)
      = List.replicate (12 * l.length) (Effect.usleep 99000) := by
  induction l with
  | nil => rfl
  | cons p rest ih =>
    rw [List.flatMap_cons, ih, EndThread_POSIX, List.length_cons,
      show 12 * (rest.length + 1) = 12 + 12 * rest.length by omega, List.replicate_add]

/-- In the WIN32 build the calls of `EndThread` over a list contain
`TerminateThread p` exactly for the listed records whose thread was late. -/
theorem mem_flatMap_EndThread_WIN32 (exited : Ptr → Bool) (l : List Ptr) (p : Ptr) :
    Effect.TerminateThread p
        ∈ l.flatMap (fun q => (CThreadGroup.EndThread Build.WIN32 exited q).2)
      ↔ p ∈ l ∧ exited p = false := by
  rw [List.mem_flatMap]
  constructor
  · rintro ⟨q, hq, hmem⟩
    unfold CThreadGroup.EndThread at hmem
    cases hx : exited q with
    | true => simp [hx] at hmem
    | false =>
      simp [hx] at hmem
      subst hmem
      exact ⟨hq, hx⟩
  · rintro ⟨hp, hx⟩
    refine ⟨p, hp, ?_⟩
    unfold CThreadGroup.EndThread
    simp [hx]

/-! ## The claims -/

/-- C1, the code at the failing input: a fresh group is asked for three
workers and the second `StartThread` returns false. Two records are appended
to the pool, yet `Start` returns 3, so the returned value is not the number of
appended records and is not below the requested count. -/
theorem Start_return_ignores_failed_attempt :
    (CThreadGroup.construct.Start 7 3 "worker" 0 true secondFails).1 = 3 ∧
    (CThreadGroup.construct.Start 7 3 "worker" 0 true secondFails).2.moThreadList
      = [100, 102] ∧
    (CThreadGroup.construct.Start 7 3 "worker" 0 true secondFails).1
      ≠ (CThreadGroup.construct.Start 7 3 "worker" 0 true secondFails).2.moThreadList.length
          - CThreadGroup.construct.moThreadList.length ∧
    ¬ (CThreadGroup.construct.Start 7 3 "worker" 0 true secondFails).1 < 3 := by
  decide

/-- C2, the code at the failing input: a fresh group is asked for three
workers and every `StartThread` returns false. The pool stays empty and no
record stays allocated, yet `Start` returns 3 and not 0. -/
theorem Start_all_failed_returns_request :
    (CThreadGroup.construct.Start 7 3 "worker" 0 true allFail).1 = 3 ∧
    (CThreadGroup.construct.Start 7 3 "worker" 0 true allFail).1 ≠ 0 ∧
    (CThreadGroup.construct.Start 7 3 "worker" 0 true allFail).2.moThreadList = [] ∧
    (CThreadGroup.construct.Start 7 3 "worker" 0 true allFail).2.heap = [] := by
  decide

/-- C3: `StopAll` returns true in every state; on a running group it leaves the
flag stopped and the pool empty; and on a fresh group, `Start` with four
workers that all spawn returns 4, `Dump` then shows size 4 and four records,
`StopAll` returns true and the next `Dump` shows size 0 and no record. -/
theorem StopAll_true_and_pool_empty (b : Build) (exited : Ptr → Bool) :
    (∀ g : CThreadGroup, (CThreadGroup.StopAll b exited g).ret = true) ∧
    (∀ g : CThreadGroup, g.mbStop = false →
      (CThreadGroup.StopAll b exited g).g.mbStop = true ∧
      (CThreadGroup.StopAll b exited g).g.moThreadList = []) ∧
    (∀ (w : Nat) (n : String) (a : Int) (env : Nat → Spawn),
      (∀ i, i < 4 → ∃ p tid, env i = Spawn.started p tid) →
      (CThreadGroup.construct.Start w 4 n a true env).1 = 4 ∧
      (CThreadGroup.construct.Start w 4 n a true env).2.Dump.size = 4 ∧
      (CThreadGroup.construct.Start w 4 n a true env).2.Dump.records.length = 4 ∧
      (CThreadGroup.StopAll b exited
        (CThreadGroup.construct.Start w 4 n a true env).2).ret = true ∧
      (CThreadGroup.StopAll b exited
        (CThreadGroup.construct.Start w 4 n a true env).2).g.Dump.size = 0 ∧
      (CThreadGroup.StopAll b exited
        (CThreadGroup.construct.Start w 4 n a true env).2).g.Dump.records = []) := by
  refine ⟨fun g => rfl, fun g hrun => ?_, fun w n a env hall => ?_⟩
  · have h := StopAll_running b exited g hrun
    exact ⟨h.1, h.2.1⟩
  · have hr : ∀ i, 0 ≤ i → i < 0 + 4 → ∃ p tid, env i = Spawn.started p tid :=
      fun i _ h => hall i (by omega)
    have hstart : CThreadGroup.construct.Start w 4 n a true env
        = CThreadGroup.StartLoop env w n a 4 0
            { CThreadGroup.construct with
              mbStop := false,
              log := CThreadGroup.construct.log ++ [Effect.EventCreate false false] } := by
      simp [CThreadGroup.Start, CThreadGroup.construct]
    have hloop := StartLoop_allStarted env w n a 4 0
      { CThreadGroup.construct with
        mbStop := false,
        log := CThreadGroup.construct.log ++ [Effect.EventCreate false false] } hr
    have hflag := StartLoop_mbStop env w n a 4 0
      { CThreadGroup.construct with
        mbStop := false,
        log := CThreadGroup.construct.log ++ [Effect.EventCreate false false] }
    rw [hstart]
    have hlen : (CThreadGroup.StartLoop env w n a 4 0
        { CThreadGroup.construct with
          mbStop := false,
          log := CThreadGroup.construct.log ++ [Effect.EventCreate false false] }
        ).2.moThreadList.length = 4 := by
      rw [hloop.2]; rfl
    have hstop := StopAll_running b exited _ hflag
    refine ⟨by rw [hloop.1], ?_, ?_, rfl, ?_, ?_⟩
    · simp only [CThreadGroup.Dump, hlen]
    · simp only [CThreadGroup.Dump, List.length_map, hlen]
    · simp only [CThreadGroup.Dump, hstop.2.1, List.length_nil]
    · simp only [CThreadGroup.Dump, hstop.2.1, List.map_nil]

/-- C3 at a concrete input: a running group with two records is stopped, and
the four-worker scenario is run in the non-WIN32 build with every worker
ending in time. -/
theorem StopAll_true_and_pool_empty_witness :
    twoWorkers.mbStop = false ∧
    (CThreadGroup.StopAll Build.POSIX (fun _ => true) twoWorkers).ret = true ∧
    (CThreadGroup.StopAll Build.POSIX (fun _ => true) twoWorkers).g.mbStop = true ∧
    (CThreadGroup.StopAll Build.POSIX (fun _ => true) twoWorkers).g.moThreadList = [] ∧
    (CThreadGroup.construct.Start 7 4 "worker" 0 true allStart).1 = 4 ∧
    (CThreadGroup.construct.Start 7 4 "worker" 0 true allStart).2.Dump.size = 4 ∧
    (CThreadGroup.StopAll Build.POSIX (fun _ => true)
      (CThreadGroup.construct.Start 7 4 "worker" 0 true allStart).2).g.Dump.records = [] :=
  have h := StopAll_true_and_pool_empty Build.POSIX (fun _ => true)
  have hs := h.2.2 7 "worker" 0 allStart (fun i _ => ⟨100 + i, 500 + i, rfl⟩)
  ⟨by decide, h.1 twoWorkers, (h.2.1 twoWorkers (by decide)).1,
    (h.2.1 twoWorkers (by decide)).2, hs.1, hs.2.1, hs.2.2.2.2.2⟩

/-- C4, the code at the failing input: a running group holds the records 100
and 101, a worker enters `Sleep(1000)` and `StopAll` is then called. In either
build `StopAll` returns with the state exactly as the sleeper left it: the log
holds no `SetEvent`, and both records are still in the pool and still
allocated. -/
theorem StopAll_after_SleepEnter_is_skipped :
    twoWorkers.mbStop = false ∧
    twoWorkers.moThreadList = [100, 101] ∧
    (twoWorkers.SleepEnter 1000).mbStop = true ∧
    (CThreadGroup.StopAll Build.POSIX (fun _ => true) (twoWorkers.SleepEnter 1000)).g
      = twoWorkers.SleepEnter 1000 ∧
    (CThreadGroup.StopAll Build.WIN32 (fun _ => true) (twoWorkers.SleepEnter 1000)).g
      = twoWorkers.SleepEnter 1000 ∧
    Effect.SetEvent
      ∉ (CThreadGroup.StopAll Build.POSIX (fun _ => true) (twoWorkers.SleepEnter 1000)).g.log ∧
    (CThreadGroup.StopAll Build.POSIX (fun _ => true)
      (twoWorkers.SleepEnter 1000)).g.moThreadList = [100, 101] ∧
    (CThreadGroup.StopAll Build.POSIX (fun _ => true)
      (twoWorkers.SleepEnter 1000)).g.heap.map Prod.fst = [100, 101] := by
  decide

/-- C5, the code at the failing input: in the non-WIN32 build a running group
holds the records 100 and 101 and neither thread ends within the wait, so two
records are late. `StopAll` reports a forced-termination count of 0 and the
line for a clean stop, issues no termination, and still frees both records.
The WIN32 build at the same input counts 2 and terminates both threads. -/
theorem StopAll_POSIX_counts_no_late_worker :
    twoWorkers.mbStop = false ∧
    lateCount (fun _ => false) twoWorkers.moThreadList = 2 ∧
    (CThreadGroup.StopAll Build.POSIX (fun _ => false) twoWorkers).liTermainte = 0 ∧
    (CThreadGroup.StopAll Build.POSIX (fun _ => false) twoWorkers).liTermainte
      ≠ lateCount (fun _ => false) twoWorkers.moThreadList ∧
    Effect.TerminateThread 100
      ∉ (CThreadGroup.StopAll Build.POSIX (fun _ => false) twoWorkers).g.log ∧
    Effect.TerminateThread 101
      ∉ (CThreadGroup.StopAll Build.POSIX (fun _ => false) twoWorkers).g.log ∧
    (CThreadGroup.StopAll Build.POSIX (fun _ => false) twoWorkers).trace
      = StopTrace.allNormal ∧
    (CThreadGroup.StopAll Build.POSIX (fun _ => false) twoWorkers).g.heap = [] ∧
    (CThreadGroup.StopAll Build.WIN32 (fun _ => false) twoWorkers).liTermainte = 2 ∧
    Effect.TerminateThread 100
      ∈ (CThreadGroup.StopAll Build.WIN32 (fun _ => false) twoWorkers).g.log ∧
    Effect.TerminateThread 101
      ∈ (CThreadGroup.StopAll Build.WIN32 (fun _ => false) twoWorkers).g.log := by
  decide

/-- What each build of `StopAll` counts on a running group. The WIN32 build
counts exactly the pooled records whose thread did not end within the 2000 ms
wait (0 when all ended in time) and issues `TerminateThread` for exactly those
records. The non-WIN32 build counts 0 whatever the threads did and only sleeps
12 times 99000 microseconds per record between `SetEvent` and `Close`. -/
theorem StopAll_forced_count (exited : Ptr → Bool) (g : CThreadGroup)
    (hrun : g.mbStop = false) :
    (CThreadGroup.StopAll Build.WIN32 exited g).liTermainte
      = lateCount exited g.moThreadList ∧
    ((∀ p ∈ g.moThreadList, exited p = true) →
      (CThreadGroup.StopAll Build.WIN32 exited g).liTermainte = 0) ∧
    (∃ added : List Effect,
      (CThreadGroup.StopAll Build.WIN32 exited g).g.log = g.log ++ added ∧
      ∀ p, Effect.TerminateThread p ∈ added ↔ (p ∈ g.moThreadList ∧ exited p = false)) ∧
    (CThreadGroup.StopAll Build.POSIX exited g).liTermainte = 0 ∧
    (CThreadGroup.StopAll Build.POSIX exited g).g.log
      = g.log ++ [Effect.SetEvent]
          ++ List.replicate (12 * g.moThreadList.length) (Effect.usleep 99000)
          ++ [Effect.EventClose] := by
  have hw := StopAll_running Build.WIN32 exited g hrun
  have hp := StopAll_running Build.POSIX exited g hrun
  have hcount : (CThreadGroup.StopAll Build.WIN32 exited g).liTermainte
      = lateCount exited g.moThreadList := by
    rw [hw.2.2.2.2]
    simp only [EndThread_WIN32_ret, lateCount]
  refine ⟨hcount, ?_, ?_, ?_, ?_⟩
  · intro hall
    rw [hcount, lateCount, List.length_eq_zero, List.filter_eq_nil_iff]
    intro p hpm
    simp [hall p hpm]
  · refine ⟨[Effect.SetEvent]
        ++ g.moThreadList.flatMap (fun p => (CThreadGroup.EndThread Build.WIN32 exited p).2)
        ++ [Effect.EventClose], ?_, ?_⟩
    · rw [hw.2.2.2.1]; simp only [List.append_assoc]
    · intro p
      rw [← mem_flatMap_EndThread_WIN32 exited g.moThreadList p]
      simp
  · rw [hp.2.2.2.2, List.length_eq_zero, List.filter_eq_nil_iff]
    intro p _
    simp [EndThread_POSIX]
  · rw [hp.2.2.2.1, flatMap_EndThread_POSIX]

/-- The counts of both builds at concrete inputs: the running group of two
records where only the thread of record 100 ends in time, and the same group
where both threads end in time. -/
theorem StopAll_forced_count_witness :
    twoWorkers.mbStop = false ∧
    (CThreadGroup.StopAll Build.WIN32 (fun p => decide (p = 100)) twoWorkers).liTermainte
      = lateCount (fun p => decide (p = 100)) twoWorkers.moThreadList ∧
    (CThreadGroup.StopAll Build.POSIX (fun p => decide (p = 100)) twoWorkers).liTermainte
      = 0 ∧
    lateCount (fun p => decide (p = 100)) twoWorkers.moThreadList = 1 ∧
    (CThreadGroup.StopAll Build.WIN32 (fun _ => true) twoWorkers).liTermainte = 0 :=
  ⟨by decide,
    (StopAll_forced_count (fun p => decide (p = 100)) twoWorkers (by decide)).1,
    (StopAll_forced_count (fun p => decide (p = 100)) twoWorkers (by decide)).2.2.2.1,
    by decide,
    (StopAll_forced_count (fun _ => true) twoWorkers (by decide)).2.1 (fun _ _ => rfl)⟩

/-- C6: `Sleep` returns true exactly when the group was running at the call
and the wait result is 0 or -1. On a stopped group it returns false and the
state, log included, is what it was, so no wait was made. On a running group
exactly one wait of the given duration is issued, and any other wait result
gives false. -/
theorem Sleep_result (g : CThreadGroup) (t : Nat) (miResult : Int) :
    ((g.Sleep t miResult).1 = true ↔ (g.mbStop = false ∧ (miResult = 0 ∨ miResult = -1))) ∧
    (g.mbStop = true → g.Sleep t miResult = (false, g)) ∧
    (g.mbStop = false → (g.Sleep t miResult).2.log = g.log ++ [Effect.WaitForEvent t]) ∧
    (g.mbStop = false → ¬ (miResult = 0 ∨ miResult = -1) → (g.Sleep t miResult).1 = false) := by
  refine ⟨?_, ?_, ?_, ?_⟩
  · unfold CThreadGroup.Sleep
    by_cases hs : g.mbStop = false
    · by_cases hr : miResult = 0 ∨ miResult = -1
      · simp [hs, hr]
      · simp [hs, hr]
    · simp [hs]
  · intro hs
    simp [CThreadGroup.Sleep, hs]
  · intro hs
    unfold CThreadGroup.Sleep CThreadGroup.SleepEnter
    by_cases hr : miResult = 0 ∨ miResult = -1
    · simp [hs, hr]
    · simp [hs, hr]
  · intro hs hr
    simp [CThreadGroup.Sleep, hs, hr]

/-- C6 at concrete inputs: a stopped fresh group, and the running group of two
records with the wait result 5. -/
theorem Sleep_result_witness :
    CThreadGroup.construct.mbStop = true ∧
    CThreadGroup.construct.Sleep 50 0 = (false, CThreadGroup.construct) ∧
    twoWorkers.mbStop = false ∧
    (twoWorkers.Sleep 50 5).2.log = twoWorkers.log ++ [Effect.WaitForEvent 50] ∧
    (twoWorkers.Sleep 50 5).1 = false :=
  ⟨by decide,
    (Sleep_result CThreadGroup.construct 50 0).2.1 (by decide),
    by decide,
    (Sleep_result twoWorkers 50 5).2.2.1 (by decide),
    (Sleep_result twoWorkers 50 5).2.2.2 (by decide) (by decide)⟩

/-- C7: on a stopped group `Detach` returns true and changes nothing. On a
running group it returns true exactly when the record is in the pool; the pool
afterwards is the old pool with the first entry equal to the record erased,
which keeps all other records in their order, is the old pool itself when the
record is absent, and no longer holds the record when the pool had no
repeated entry. -/
theorem Detach_spec (g : CThreadGroup) (r : Ptr) :
    (g.mbStop = true → g.Detach r = (true, g)) ∧
    (g.mbStop = false →
      ((g.Detach r).1 = true ↔ r ∈ g.moThreadList) ∧
      (g.Detach r).2.moThreadList = g.moThreadList.erase r ∧
      (g.Detach r).2.moThreadList.filter (fun x => decide (x ≠ r))
        = g.moThreadList.filter (fun x => decide (x ≠ r)) ∧
      (r ∉ g.moThreadList → (g.Detach r).2.moThreadList = g.moThreadList) ∧
      (g.moThreadList.Nodup → r ∉ (g.Detach r).2.moThreadList) ∧
      (g.Detach r).2.mbStop = false) := by
  refine ⟨fun hs => by simp [CThreadGroup.Detach, hs], fun hs => ?_⟩
  have hlist : (g.Detach r).2.moThreadList = g.moThreadList.erase r := by
    by_cases hm : r ∈ g.moThreadList <;>
      simp [CThreadGroup.Detach, hs, DetachLoop_spec, hm]
  refine ⟨?_, hlist, ?_, ?_, ?_, ?_⟩
  · by_cases hm : r ∈ g.moThreadList <;>
      simp [CThreadGroup.Detach, hs, DetachLoop_spec, hm]
  · rw [hlist]; exact erase_keeps_others r g.moThreadList
  · intro hm
    rw [hlist]; exact List.erase_of_not_mem hm
  · intro hnd
    rw [hlist]
    intro hmem
    exact ((List.Nodup.mem_erase_iff hnd).1 hmem).1 rfl
  · by_cases hm : r ∈ g.moThreadList <;>
      simp [CThreadGroup.Detach, hs, DetachLoop_spec, hm]

/-- C7 at concrete inputs: a stopped fresh group, and the running group of two
records from which record 100, and then the absent record 300, is detached. -/
theorem Detach_spec_witness :
    CThreadGroup.construct.mbStop = true ∧
    CThreadGroup.construct.Detach 100 = (true, CThreadGroup.construct) ∧
    twoWorkers.mbStop = false ∧
    (twoWorkers.Detach 100).2.moThreadList = twoWorkers.moThreadList.erase 100 ∧
    (twoWorkers.Detach 100).2.moThreadList = [101] ∧
    300 ∉ twoWorkers.moThreadList ∧
    (twoWorkers.Detach 300).2.moThreadList = twoWorkers.moThreadList ∧
    twoWorkers.moThreadList.Nodup ∧
    100 ∉ (twoWorkers.Detach 100).2.moThreadList :=
  ⟨by decide,
    (Detach_spec CThreadGroup.construct 100).1 (by decide),
    by decide,
    ((Detach_spec twoWorkers 100).2 (by decide)).2.1,
    by decide,
    by decide,
    ((Detach_spec twoWorkers 300).2 (by decide)).2.2.2.1 (by decide),
    by decide,
    ((Detach_spec twoWorkers 100).2 (by decide)).2.2.2.2.1 (by decide)⟩

/-- C8 as stated fails on a stopped group: record 100 is not in the pool of a
fresh group, yet `Detach` returns true there. -/
theorem Detach_absent_on_stopped_returns_true :
    CThreadGroup.construct.mbStop = true ∧
    100 ∉ CThreadGroup.construct.moThreadList ∧
    (CThreadGroup.construct.Detach 100).1 = true ∧
    ¬ (CThreadGroup.construct.Detach 100).1 = false := by
  decide

/-- C8 amended: for a record that is not in the pool, `Detach` on a running
group returns false and leaves the whole state unchanged; on a stopped group
it returns true and also leaves the state unchanged. -/
theorem Detach_absent (g : CThreadGroup) (r : Ptr) (habs : r ∉ g.moThreadList) :
    (g.mbStop = false → g.Detach r = (false, g)) ∧
    (g.mbStop = true → g.Detach r = (true, g)) := by
  refine ⟨fun hs => ?_, fun hs => by simp [CThreadGroup.Detach, hs]⟩
  obtain ⟨stop, pool, heap, log⟩ := g
  simp only at hs habs
  subst hs
  simp [CThreadGroup.Detach, DetachLoop_spec, habs, List.erase_of_not_mem habs]

/-- C8 amended, at concrete inputs: record 300 is in neither pool. -/
theorem Detach_absent_witness :
    300 ∉ twoWorkers.moThreadList ∧
    twoWorkers.mbStop = false ∧
    twoWorkers.Detach 300 = (false, twoWorkers) ∧
    CThreadGroup.construct.Detach 300 = (true, CThreadGroup.construct) :=
  ⟨by decide, by decide,
    (Detach_absent twoWorkers 300 (by decide)).1 (by decide),
    (Detach_absent CThreadGroup.construct 300 (by decide)).2 (by decide)⟩

/-- C9: `WakeAll` never changes the pool or the allocated records. On a
stopped group it issues `SetEvent` and leaves the flag running; on a running
group the whole state (flag, log, pool) is what it was. -/
theorem WakeAll_frame (g : CThreadGroup) :
    g.WakeAll.moThreadList = g.moThreadList ∧
    g.WakeAll.heap = g.heap ∧
    (g.mbStop = true →
      g.WakeAll.mbStop = false ∧ g.WakeAll.log = g.log ++ [Effect.SetEvent]) ∧
    (g.mbStop = false → g.WakeAll = g) := by
  unfold CThreadGroup.WakeAll
  cases h : g.mbStop <;> simp

/-- C9 at concrete inputs: a stopped fresh group and the running group of two
records. -/
theorem WakeAll_frame_witness :
    CThreadGroup.construct.mbStop = true ∧
    CThreadGroup.construct.WakeAll.mbStop = false ∧
    CThreadGroup.construct.WakeAll.log = CThreadGroup.construct.log ++ [Effect.SetEvent] ∧
    twoWorkers.mbStop = false ∧
    twoWorkers.WakeAll = twoWorkers :=
  ⟨by decide,
    ((WakeAll_frame CThreadGroup.construct).2.2.1 (by decide)).1,
    ((WakeAll_frame CThreadGroup.construct).2.2.1 (by decide)).2,
    by decide,
    (WakeAll_frame twoWorkers).2.2.2 (by decide)⟩

/-- After `Cancel`, whatever calls follow, the world is untouched and the
receiver stays null. -/
theorem perform_null_receiver {T Method Params W : Type}
    (D : T → Method → Params → W → W) :
    ∀ (calls : List TaskCall) (t : RunnableMethod T Method Params) (w : W),
      t.obj_ = none →
      (RunnableMethod.perform D calls t w).2 = w ∧
      (RunnableMethod.perform D calls t w).1.obj_ = none := by
  intro calls
  induction calls with
  | nil => intro t w h; exact ⟨rfl, h⟩
  | cons c rest ih =>
    intro t w h
    cases c with
    | Run =>
      have hrun : RunnableMethod.Run D t w = (t, w) := by
        simp [RunnableMethod.Run, h]
      simp only [RunnableMethod.perform, hrun]
      exact ih t w h
    | Cancel =>
      simp only [RunnableMethod.perform, RunnableMethod.Cancel]
      exact ih t.ReleaseCallee w rfl

/-- C10: for a task built by the free `NewRunnableMethod`, `Run` with a
non-null receiver is exactly one dispatch of the method on that receiver with
the captured tuple and leaves the task as it was; `Run` with a null receiver
changes nothing; `Cancel` leaves the world untouched and nulls the receiver;
and after a `Cancel` any further sequence of calls leaves the world untouched. -/
theorem RunnableMethod_Run_Cancel {T Method Params W : Type}
    (D : T → Method → Params → W → W) (obj : T) (m : Method) (ps : Params) (w : W) :
    RunnableMethod.Run D (NewRunnableMethod (some obj) m ps) w
      = (NewRunnableMethod (some obj) m ps, D obj m ps w) ∧
    RunnableMethod.Run D (NewRunnableMethod (none : Option T) m ps) w
      = (NewRunnableMethod (none : Option T) m ps, w) ∧
    (∀ object : Option T,
      (RunnableMethod.Cancel D (NewRunnableMethod object m ps) w).2 = w ∧
      (RunnableMethod.Cancel D (NewRunnableMethod object m ps) w).1.obj_ = none) ∧
    (∀ (object : Option T) (calls : List TaskCall),
      (RunnableMethod.perform D (TaskCall.Cancel :: calls)
        (NewRunnableMethod object m ps) w).2 = w ∧
      (RunnableMethod.perform D (TaskCall.Cancel :: calls)
        (NewRunnableMethod object m ps) w).1.obj_ = none) := by
  refine ⟨rfl, rfl, fun object => ⟨rfl, rfl⟩, fun object calls => ?_⟩
  simp only [RunnableMethod.perform, RunnableMethod.Cancel]
  exact perform_null_receiver D calls _ w rfl

/-! ## Tasks of a `ScopedRunnableMethodFactory` -/

/-- `Cancel` on a task of a factory returns the task and the world as they
were. -/
theorem ScopedRunnableMethod_Cancel_eq {T Method Params W : Type}
    (D : T → Method → Params → W → W)
    (t : ScopedRunnableMethodFactory.RunnableMethod T Method Params) (w : W) :
    ScopedRunnableMethodFactory.RunnableMethod.Cancel D t w = (t, w) := rfl

/-- The end of the factory's lifetime leaves the handed-out tasks as they
were. -/
theorem destroyFactory_issued {T Method Params : Type} (s : FactoryScope T Method Params) :
    s.destroyFactory.issued = s.issued := rfl

/-- C11, the code at the failing input: the factory of owner 1 makes a task for
method 7, the holder calls `Cancel` and then `Run`, and the call counter of
the owner starts at 0. After `Cancel` the receiver pointer is still the owner,
and the `Run` dispatches, so the counter reads 1. The same two calls on a task
of the free `NewRunnableMethod` leave the counter at 0. -/
theorem ScopedRunnableMethod_Run_after_Cancel_dispatches :
    ownerTask.obj_ = some 1 ∧
    (ScopedRunnableMethodFactory.RunnableMethod.Cancel countCall ownerTask 0).1.obj_
      = some 1 ∧
    (ScopedRunnableMethodFactory.RunnableMethod.Cancel countCall ownerTask 0).2 = 0 ∧
    (ScopedRunnableMethodFactory.RunnableMethod.perform countCall
      [TaskCall.Cancel, TaskCall.Run] ownerTask 0).2 = 1 ∧
    (RunnableMethod.perform countCall
      [TaskCall.Cancel, TaskCall.Run] (NewRunnableMethod (some 1) 7 ()) 0).2 = 0 := by
  decide

/-- C12, the code at the failing input: the factory of owner 1 hands out one
task for method 7 and is then destroyed; the owner itself is still alive and
its call counter is 0. The task still holds the owner, and running it after
the destruction dispatches: the counter reads 1. -/
theorem Run_after_factory_destroyed_dispatches :
    (ownerScope.NewRunnableMethod 7 ()).destroyFactory.factory.isNone = true ∧
    (ownerScope.NewRunnableMethod 7 ()).destroyFactory.issued.map (fun t => t.obj_)
      = [some 1] ∧
    FactoryScope.RunAll countCall (ownerScope.NewRunnableMethod 7 ()).destroyFactory 0
      = 1 := by
  decide

/-- C13: for a `RunnableFunction`, `Run` with a non-null function is exactly one
dispatch of that function with the captured tuple and leaves the task as it
was; `Run` with a null function changes nothing; `Cancel` returns the task and
the world as they were; so `Run` after `Cancel` gives what `Run` alone gives. -/
theorem RunnableFunction_Run_Cancel {Function Params W : Type}
    (D : Function → Params → W → W) (fn : Function) (ps : Params) (w : W) :
    RunnableFunction.Run D (NewRunnableFunction (some fn) ps) w
      = (NewRunnableFunction (some fn) ps, D fn ps w) ∧
    RunnableFunction.Run D (NewRunnableFunction (none : Option Function) ps) w
      = (NewRunnableFunction (none : Option Function) ps, w) ∧
    (∀ t : RunnableFunction Function Params,
      RunnableFunction.Cancel D t w = (t, w) ∧
      RunnableFunction.Run D (RunnableFunction.Cancel D t w).1
          (RunnableFunction.Cancel D t w).2
        = RunnableFunction.Run D t w) :=
  ⟨rfl, rfl, fun _ => ⟨rfl, rfl⟩⟩

/-! ## `TaskQueue` -/

/-- Pushing a list of tasks one by one appends the list to the queue. -/
theorem foldl_Push_queue {Task : Type} (l : List Task) :
    ∀ q : TaskQueue Task, (l.foldl TaskQueue.Push q).queue_ = q.queue_ ++ l := by
  induction l with
  | nil => intro q; simp
  | cons a rest ih =>
    intro q
    rw [List.foldl_cons, ih]
    simp [TaskQueue.Push]

/-- A pass over a batch runs the batch in order and leaves in the queue what
was there plus the tasks pushed meanwhile, in the order of the pushes. -/
theorem foldl_runTask {Task : Type} (pushes : Task → List Task) (batch : List Task) :
    ∀ (q : TaskQueue Task) (executed : List Task),
      batch.foldl (TaskQueue.runTask pushes) (q, executed)
        = ({ queue_ := q.queue_ ++ batch.flatMap pushes }, executed ++ batch) := by
  induction batch with
  | nil => intro q executed; simp
  | cons a rest ih =>
    intro q executed
    rw [List.foldl_cons]
    simp only [TaskQueue.runTask]
    rw [ih, foldl_Push_queue]
    simp [List.flatMap_cons, List.append_assoc]

/-- `Run` on a queue: the queued tasks are run in order, and the queue holds
the tasks pushed meanwhile. -/
theorem TaskQueue_Run_eq {Task : Type} (pushes : Task → List Task) (q : TaskQueue Task)
    (executed : List Task) :
    TaskQueue.Run pushes q executed
      = ({ queue_ := q.queue_.flatMap pushes }, executed ++ q.queue_) := by
  unfold TaskQueue.Run
  rw [foldl_runTask]
  simp

/-- C14: after the pushes `P` onto a new queue, one `Run` executes exactly `P`,
each task once and in push order; the tasks pushed during that `Run` are not
executed by it, they are the queue afterwards (so `IsEmpty` is false whenever
there is one), and the next `Run` executes exactly them. For the task A whose
execution pushes B: the first `Run` executes only A and leaves the queue
non-empty, the second executes B and leaves the queue empty. -/
theorem TaskQueue_Run_order {Task : Type} (pushes : Task → List Task)
    (P executed : List Task) :
    (TaskQueue.Run pushes (P.foldl TaskQueue.Push TaskQueue.construct) executed).2
      = executed ++ P ∧
    (TaskQueue.Run pushes (P.foldl TaskQueue.Push TaskQueue.construct) executed).1.queue_
      = P.flatMap pushes ∧
    (∀ b, b ∈ P.flatMap pushes →
      (TaskQueue.Run pushes
        (P.foldl TaskQueue.Push TaskQueue.construct) executed).1.IsEmpty = false) ∧
    (TaskQueue.Run pushes
      (TaskQueue.Run pushes (P.foldl TaskQueue.Push TaskQueue.construct) executed).1
      (TaskQueue.Run pushes (P.foldl TaskQueue.Push TaskQueue.construct) executed).2).2
      = executed ++ P ++ P.flatMap pushes ∧
    (TaskQueue.Run pushesAB (TaskQueue.construct.Push 0) []).2 = [0] ∧
    (TaskQueue.Run pushesAB (TaskQueue.construct.Push 0) []).1.IsEmpty = false ∧
    (TaskQueue.Run pushesAB
      (TaskQueue.Run pushesAB (TaskQueue.construct.Push 0) []).1
      (TaskQueue.Run pushesAB (TaskQueue.construct.Push 0) []).2).2 = [0, 1] ∧
    (TaskQueue.Run pushesAB
      (TaskQueue.Run pushesAB (TaskQueue.construct.Push 0) []).1
      (TaskQueue.Run pushesAB (TaskQueue.construct.Push 0) []).2).1.IsEmpty = true := by
  have hq : (P.foldl TaskQueue.Push (TaskQueue.construct : TaskQueue Task)).queue_ = P := by
    rw [foldl_Push_queue]; simp [TaskQueue.construct]
  have hrun : TaskQueue.Run pushes (P.foldl TaskQueue.Push TaskQueue.construct) executed
      = ({ queue_ := P.flatMap pushes }, executed ++ P) := by
    rw [TaskQueue_Run_eq, hq]
  refine ⟨by rw [hrun], by rw [hrun], ?_, ?_, by decide, by decide, by decide, by decide⟩
  · intro b hb
    rw [hrun]
    cases hl : P.flatMap pushes with
    | nil => rw [hl] at hb; cases hb
    | cons x xs => rfl
  · rw [hrun, TaskQueue_Run_eq]

/-- C14 at a concrete input: A (task 0) is pushed and pushes B (task 1) when it
runs. -/
theorem TaskQueue_Run_order_witness :
    (TaskQueue.Run pushesAB ([0].foldl TaskQueue.Push TaskQueue.construct) []).2 = [] ++ [0] ∧
    (TaskQueue.Run pushesAB ([0].foldl TaskQueue.Push TaskQueue.construct) []).1.IsEmpty
      = false :=
  ⟨(TaskQueue_Run_order pushesAB [0] []).1,
    (TaskQueue_Run_order pushesAB [0] []).2.2.1 1 (by decide)⟩

/-! ## Lock discipline -/

/-- The accesses of the loop of `Start` are all writes, so with the lock held
they pass and leave it held. -/
theorem underLock_StartLoopAccesses (env : Nat → Spawn) :
    ∀ (k c : Nat) (rest : List Access),
      underLock true (CThreadGroup.StartLoopAccesses env k c ++ rest)
        = underLock true rest := by
  intro k
  induction k with
  | zero => intro c rest; rfl
  | succ k ih =>
    intro c rest
    unfold CThreadGroup.StartLoopAccesses
    cases h : env c with
    | started p tid => simp [underLock, ih]
    | failed p => simp [ih]
    | newThrows => simp
    | pushThrows p tid => simp

/-- Replaying the accesses of the loop of `Start` on the list gives the list
the loop itself produces, and leaves the flag alone. -/
theorem replay_StartLoopAccesses (env : Nat → Spawn) (w : Nat) (n : String) (a : Int) :
    ∀ (k c : Nat) (g : CThreadGroup) (flag : Bool) (rest : List Access),
      replayAccesses (CThreadGroup.StartLoopAccesses env k c ++ rest) (flag, g.moThreadList)
        = replayAccesses rest
            (flag, (CThreadGroup.StartLoop env w n a k c g).2.moThreadList) := by
  intro k
  induction k with
  | zero => intro c g flag rest; rfl
  | succ k ih =>
    intro c g flag rest
    unfold CThreadGroup.StartLoopAccesses CThreadGroup.StartLoop
    cases h : env c with
    | started p tid =>
      simp only [List.cons_append, replayAccesses]
      exact ih (c + 1) { g with
          moThreadList := g.moThreadList ++ [p],
          heap := g.heap ++ [(p, { mpWorkContext := w, threadName := n, threadIndex := c,
                                   miPriority := a, muiThreadID := tid })],
          log := g.log ++ [Effect.StartThread p] } flag rest
    | failed p =>
      exact ih (c + 1) { g with log := g.log ++ [Effect.StartThread p] } flag rest
    | newThrows => rfl
    | pushThrows p tid => rfl

/-- Replaying the accesses of `Start` on flag and list gives the flag and list
`Start` itself produces. -/
theorem replay_StartAccesses (g : CThreadGroup) (w N : Nat) (n : String) (a : Int)
    (createOk : Bool) (env : Nat → Spawn) :
    replayAccesses (g.StartAccesses N createOk env) (g.mbStop, g.moThreadList)
      = ((g.Start w N n a createOk env).2.mbStop,
         (g.Start w N n a createOk env).2.moThreadList) := by
  unfold CThreadGroup.StartAccesses CThreadGroup.Start
  cases hs : g.mbStop with
  | false =>
    show replayAccesses (CThreadGroup.StartLoopAccesses env N 0 ++ [Access.unlock])
        (false, g.moThreadList)
      = ((CThreadGroup.StartLoop env w n a N 0 g).2.mbStop,
         (CThreadGroup.StartLoop env w n a N 0 g).2.moThreadList)
    rw [replay_StartLoopAccesses env w n a N 0 g false [Access.unlock]]
    simp only [replayAccesses, StartLoop_mbStop, hs]
  | true =>
    cases createOk with
    | false => simp [replayAccesses]
    | true =>
      show replayAccesses (CThreadGroup.StartLoopAccesses env N 0 ++ [Access.unlock])
          (false, g.moThreadList)
        = ((CThreadGroup.StartLoop env w n a N 0
              { g with mbStop := false,
                       log := g.log ++ [Effect.EventCreate false false] }).2.mbStop,
           (CThreadGroup.StartLoop env w n a N 0
              { g with mbStop := false,
                       log := g.log ++ [Effect.EventCreate false false] }).2.moThreadList)
      have h := replay_StartLoopAccesses env w n a N 0
        { g with mbStop := false, log := g.log ++ [Effect.EventCreate false false] }
        false [Access.unlock]
      simp only [] at h
      rw [h]
      simp only [replayAccesses, StartLoop_mbStop]

/-- In `Start` every write to the flag and to the list happens with the lock
held. -/
theorem underLock_StartAccesses (g : CThreadGroup) (N : Nat) (createOk : Bool)
    (env : Nat → Spawn) :
    underLock false (g.StartAccesses N createOk env) = true := by
  unfold CThreadGroup.StartAccesses
  cases hs : g.mbStop with
  | false =>
    show underLock true (CThreadGroup.StartLoopAccesses env N 0 ++ [Access.unlock]) = true
    rw [underLock_StartLoopAccesses]; rfl
  | true =>
    cases createOk with
    | false => simp [underLock]
    | true =>
      show (true && underLock true
        (CThreadGroup.StartLoopAccesses env N 0 ++ [Access.unlock])) = true
      rw [underLock_StartLoopAccesses]; rfl

/-- C15 as stated fails for `Sleep` and `WakeAll`: on the running group of two
records `Sleep` writes `mbStop = true` and takes no lock, and on a stopped
fresh group `WakeAll` writes `mbStop = false` and takes no lock. -/
theorem Sleep_WakeAll_write_flag_unlocked :
    twoWorkers.mbStop = false ∧
    twoWorkers.SleepAccesses = [Access.writeStop true] ∧
    underLock false twoWorkers.SleepAccesses = false ∧
    (twoWorkers.Sleep 1000 0).2.mbStop ≠ twoWorkers.mbStop ∧
    CThreadGroup.construct.mbStop = true ∧
    CThreadGroup.construct.WakeAllAccesses = [Access.writeStop false] ∧
    underLock false CThreadGroup.construct.WakeAllAccesses = false ∧
    CThreadGroup.construct.WakeAll.mbStop ≠ CThreadGroup.construct.mbStop := by
  decide

/-- C15 amended: the listed accesses are the writes each public operation makes
to the flag and to the record list (replaying them gives the flag and list the
operation produces); in `Start`, `StopAll` and `Detach` every such write
happens while the lock is held, which covers every write to the record list;
`Sleep` and `WakeAll` write only the flag, and when they write it no lock is
held. -/
theorem lock_discipline (g : CThreadGroup) (w N : Nat) (n : String) (a : Int)
    (createOk : Bool) (env : Nat → Spawn) (r : Ptr) (t : Nat) (miResult : Int)
    (b : Build) (exited : Ptr → Bool) :
    replayAccesses (g.StartAccesses N createOk env) (g.mbStop, g.moThreadList)
      = ((g.Start w N n a createOk env).2.mbStop,
         (g.Start w N n a createOk env).2.moThreadList) ∧
    replayAccesses g.StopAllAccesses (g.mbStop, g.moThreadList)
      = ((CThreadGroup.StopAll b exited g).g.mbStop,
         (CThreadGroup.StopAll b exited g).g.moThreadList) ∧
    replayAccesses (g.DetachAccesses r) (g.mbStop, g.moThreadList)
      = ((g.Detach r).2.mbStop, (g.Detach r).2.moThreadList) ∧
    replayAccesses g.SleepAccesses (g.mbStop, g.moThreadList)
      = ((g.Sleep t miResult).2.mbStop, (g.Sleep t miResult).2.moThreadList) ∧
    replayAccesses g.WakeAllAccesses (g.mbStop, g.moThreadList)
      = (g.WakeAll.mbStop, g.WakeAll.moThreadList) ∧
    underLock false (g.StartAccesses N createOk env) = true ∧
    underLock false g.StopAllAccesses = true ∧
    underLock false (g.DetachAccesses r) = true ∧
    (g.mbStop = false →
      g.SleepAccesses = [Access.writeStop true] ∧ underLock false g.SleepAccesses = false) ∧
    (g.mbStop = true → g.SleepAccesses = []) ∧
    (g.mbStop = true →
      g.WakeAllAccesses = [Access.writeStop false] ∧
      underLock false g.WakeAllAccesses = false) ∧
    (g.mbStop = false → g.WakeAllAccesses = []) := by
  refine ⟨replay_StartAccesses g w N n a createOk env, ?_, ?_, ?_, ?_,
    underLock_StartAccesses g N createOk env, ?_, ?_, ?_, ?_, ?_, ?_⟩
  · cases hs : g.mbStop with
    | false =>
      have h := StopAll_running b exited g hs
      rw [h.1, h.2.1]
      simp [CThreadGroup.StopAllAccesses, CThreadGroup.IsStop, hs, replayAccesses]
    | true =>
      rw [StopAll_stopped b exited g hs]
      simp [CThreadGroup.StopAllAccesses, CThreadGroup.IsStop, hs, replayAccesses]
  · cases hs : g.mbStop with
    | false =>
      by_cases hm : r ∈ g.moThreadList
      · simp [CThreadGroup.DetachAccesses, CThreadGroup.Detach, hs, DetachLoop_spec, hm,
          replayAccesses]
      · simp [CThreadGroup.DetachAccesses, CThreadGroup.Detach, hs, DetachLoop_spec, hm,
          replayAccesses, List.erase_of_not_mem hm]
    | true => simp [CThreadGroup.DetachAccesses, CThreadGroup.Detach, hs, replayAccesses]
  · cases hs : g.mbStop with
    | false =>
      by_cases hr : miResult = 0 ∨ miResult = -1 <;>
        simp [CThreadGroup.SleepAccesses, CThreadGroup.Sleep, CThreadGroup.SleepEnter, hs,
          hr, replayAccesses]
    | true => simp [CThreadGroup.SleepAccesses, CThreadGroup.Sleep, hs, replayAccesses]
  · cases hs : g.mbStop <;>
      simp [CThreadGroup.WakeAllAccesses, CThreadGroup.WakeAll, hs, replayAccesses]
  · cases hs : g.mbStop <;>
      simp [CThreadGroup.StopAllAccesses, CThreadGroup.IsStop, hs, underLock]
  · cases hs : g.mbStop with
    | false =>
      by_cases hm : r ∈ g.moThreadList <;>
        simp [CThreadGroup.DetachAccesses, hs, DetachLoop_spec, hm, underLock]
    | true => simp [CThreadGroup.DetachAccesses, hs, underLock]
  · intro hs; simp [CThreadGroup.SleepAccesses, hs, underLock]
  · intro hs; simp [CThreadGroup.SleepAccesses, hs]
  · intro hs; simp [CThreadGroup.WakeAllAccesses, hs, underLock]
  · intro hs; simp [CThreadGroup.WakeAllAccesses, hs]

/-- C15 amended, at concrete inputs: the running group of two records and a
stopped fresh group. -/
theorem lock_discipline_witness :
    twoWorkers.mbStop = false ∧
    twoWorkers.SleepAccesses = [Access.writeStop true] ∧
    twoWorkers.WakeAllAccesses = [] ∧
    underLock false (twoWorkers.DetachAccesses 100) = true ∧
    CThreadGroup.construct.mbStop = true ∧
    CThreadGroup.construct.SleepAccesses = [] ∧
    underLock false CThreadGroup.construct.WakeAllAccesses = false ∧
    underLock false (CThreadGroup.construct.StartAccesses 2 true allStart) = true :=
  have h1 := lock_discipline twoWorkers 7 2 "worker" 0 true allStart 100 50 0 Build.POSIX
    (fun _ => true)
  have h2 := lock_discipline CThreadGroup.construct 7 2 "worker" 0 true allStart 100 50 0
    Build.POSIX (fun _ => true)
  ⟨by decide,
    (h1.2.2.2.2.2.2.2.2.1 (by decide)).1,
    h1.2.2.2.2.2.2.2.2.2.2.2 (by decide),
    h1.2.2.2.2.2.2.2.1,
    by decide,
    h2.2.2.2.2.2.2.2.2.2.1 (by decide),
    (h2.2.2.2.2.2.2.2.2.2.2.1 (by decide)).2,
    h2.2.2.2.2.2.1⟩

/-- C16: when `Start` is called on a stopped group and the creation of the
event fails, it returns 0; the state afterwards is the old state with the flag
set to running and the one `Create` call logged, so no `StartThread` was
attempted, the record list and the allocated records are what they were, and
the flag differs from the one before the call. -/
theorem Start_event_creation_fails (g : CThreadGroup) (w N : Nat) (n : String) (a : Int)
    (env : Nat → Spawn) (hstop : g.mbStop = true) :
    g.Start w N n a false env
      = (0, { g with mbStop := false,
                     log := g.log ++ [Effect.EventCreate false false] }) ∧
    (g.Start w N n a false env).1 = 0 ∧
    (g.Start w N n a false env).2.moThreadList = g.moThreadList ∧
    (g.Start w N n a false env).2.heap = g.heap ∧
    (g.Start w N n a false env).2.log = g.log ++ [Effect.EventCreate false false] ∧
    (g.Start w N n a false env).2.mbStop = false ∧
    (g.Start w N n a false env).2.mbStop ≠ g.mbStop := by
  have h : g.Start w N n a false env
      = (0, { g with mbStop := false,
                     log := g.log ++ [Effect.EventCreate false false] }) := by
    simp [CThreadGroup.Start, hstop]
  refine ⟨h, ?_, ?_, ?_, ?_, ?_, ?_⟩ <;> simp [h, hstop]

/-- C16 at a concrete input: a fresh group asked for three workers while the
creation of the event fails. -/
theorem Start_event_creation_fails_witness :
    CThreadGroup.construct.mbStop = true ∧
    (CThreadGroup.construct.Start 7 3 "worker" 0 false allStart).1 = 0 ∧
    (CThreadGroup.construct.Start 7 3 "worker" 0 false allStart).2.moThreadList
      = CThreadGroup.construct.moThreadList ∧
    (CThreadGroup.construct.Start 7 3 "worker" 0 false allStart).2.mbStop = false :=
  have h := Start_event_creation_fails CThreadGroup.construct 7 3 "worker" 0 allStart
    (by decide)
  ⟨by decide, h.2.1, h.2.2.1, h.2.2.2.2.2.1⟩

/-- `Sleep` on a stopped group returns false at once and changes nothing. -/
theorem Sleep_on_stopped (g : CThreadGroup) (t : Nat) (miResult : Int)
    (hstop : g.mbStop = true) : g.Sleep t miResult = (false, g) := by
  simp [CThreadGroup.Sleep, hstop]

/-- C17: whatever the state, the duration and the wait result, after `Sleep`
the flag is stopped and the record list is what it was; a second `Sleep` right
after returns false and leaves the state, log included, as it was (no wait);
and a `StopAll` right after the `Sleep` leaves the state as it was, so the
record list is still the one from before the `Sleep`. -/
theorem Sleep_leaves_group_stopped (g : CThreadGroup) (t t2 : Nat) (miResult miResult2 : Int)
    (b : Build) (exited : Ptr → Bool) :
    (g.Sleep t miResult).2.mbStop = true ∧
    (g.Sleep t miResult).2.moThreadList = g.moThreadList ∧
    (g.Sleep t miResult).2.Sleep t2 miResult2 = (false, (g.Sleep t miResult).2) ∧
    (CThreadGroup.StopAll b exited (g.Sleep t miResult).2).g = (g.Sleep t miResult).2 ∧
    (CThreadGroup.StopAll b exited (g.Sleep t miResult).2).g.moThreadList
      = g.moThreadList ∧
    (CThreadGroup.StopAll b exited (g.Sleep t miResult).2).g.heap = g.heap := by
  have hflag : (g.Sleep t miResult).2.mbStop = true := by
    unfold CThreadGroup.Sleep CThreadGroup.SleepEnter
    cases hs : g.mbStop with
    | false => by_cases hr : miResult = 0 ∨ miResult = -1 <;> simp [hr]
    | true => simp [hs]
  have hlist : (g.Sleep t miResult).2.moThreadList = g.moThreadList := by
    unfold CThreadGroup.Sleep CThreadGroup.SleepEnter
    cases hs : g.mbStop with
    | false => by_cases hr : miResult = 0 ∨ miResult = -1 <;> simp [hr]
    | true => simp
  have hheap : (g.Sleep t miResult).2.heap = g.heap := by
    unfold CThreadGroup.Sleep CThreadGroup.SleepEnter
    cases hs : g.mbStop with
    | false => by_cases hr : miResult = 0 ∨ miResult = -1 <;> simp [hr]
    | true => simp
  have hstop := StopAll_stopped b exited (g.Sleep t miResult).2 hflag
  refine ⟨hflag, hlist, ?_, ?_, ?_, ?_⟩
  · exact Sleep_on_stopped _ t2 miResult2 hflag
  · rw [hstop]
  · rw [hstop]; exact hlist
  · rw [hstop]; exact hheap
